import Mathlib

/-!
Verification development for the rank-score calculator (`src/app.js`).

The JavaScript source is shallowly embedded:
* strings are `String` / `List Char`, with JS `trim`, `parseInt(·, 10)` and the
  token parser modelled character by character;
* JS numbers are exact: ratings are `ℤ`, scores and fractions are `ℚ`;
* `x.toFixed(1)` (format to one decimal) and `Math.round` both round by
  `⌊10·q + 1/2⌋` per the ECMAScript specification ("pick the larger n" on ties),
  `Math.ceil` is `⌈·⌉`;
* `getExpectedScore` may return either a number or a string
  (`Number(fullMark).toFixed(1)`); the sum type `JsValue` keeps the two apart,
  with `jsToNumber` giving the numeric value JS obtains by `Number(·)`.
-/

/-- Characters removed by JS `String.prototype.trim` (the common ones:
space, tab, LF, CR, VT, FF, NBSP, BOM). -/
def isJsSpace (c : Char) : Bool :=
  c.toNat = 32 || c.toNat = 9 || c.toNat = 10 || c.toNat = 13 ||
  c.toNat = 11 || c.toNat = 12 || c.toNat = 160 || c.toNat = 0xFEFF

/-- JS `String.prototype.trim` on a character list. -/
def jsTrimList (l : List Char) : List Char :=
  ((l.dropWhile isJsSpace).reverse.dropWhile isJsSpace).reverse

/-- JS `String.prototype.trim`. -/
def jsTrim (s : String) : String :=
  ⟨jsTrimList s.data⟩

/-- Decimal digit test (`0`-`9`), via code points. -/
def isDigit10 (c : Char) : Bool :=
  48 ≤ c.toNat && c.toNat ≤ 57

/-- Numeric value of a decimal digit character. -/
def digitVal (c : Char) : ℕ :=
  c.toNat - 48

/-- Value of a list of decimal digit characters, most significant first. -/
def digitsToNat (l : List Char) : ℕ :=
  l.foldl (fun a c => 10 * a + digitVal c) 0

/-- JS `parseInt(str, 10)`: skip whitespace, optional sign, then the longest
run of decimal digits; `none` models the `NaN` result when no digit is found.
The digit run may be followed by arbitrary ignored characters. -/
def jsParseInt10 (l : List Char) : Option ℤ :=
  let l1 := l.dropWhile isJsSpace
  let sign : ℤ := if l1.head? = some '-' then -1 else 1
  let l2 := if l1.head? = some '-' ∨ l1.head? = some '+' then l1.tail else l1
  let ds := l2.takeWhile isDigit10
  if ds = [] then none else some (sign * (digitsToNat ds : ℤ))

/-- Test for a result marker as used in `parseOpponentToken`: the source
compares `raw[0].toUpperCase()` against `"W"`, `"D"`, `"L"`, which for these
code points is exactly a case-insensitive match. -/
def isMarker (c : Char) : Bool :=
  c = 'W' || c = 'w' || c = 'D' || c = 'd' || c = 'L' || c = 'l'

/-- Result of `parseOpponentToken` (src/app.js lines 77-96). -/
structure ParsedToken where
  opponentId : Option ℤ
  display : String
deriving DecidableEq, Repr

/-- Model of `parseOpponentToken` (src/app.js lines 77-96).  `none` as input
models a missing (`undefined`/`null`) token. -/
def parseOpponentToken (token : Option String) : ParsedToken :=
  match token with
  | none => ⟨none, ""⟩
  | some s =>
    match jsTrimList s.data with
    | [] => ⟨none, ""⟩
    | c :: rest =>
      let maybeNumber := if isMarker c then rest else c :: rest
      ⟨jsParseInt10 maybeNumber, ⟨c :: rest⟩⟩

/-- JS `Math.round` (and the integer produced for ties by `toFixed`):
round half toward positive infinity. -/
def jsRound (q : ℚ) : ℤ :=
  ⌊q + 1/2⌋

/-- Numeric value of `x.toFixed(1)` read back with `Number(·)`:
round to one decimal place. -/
def round1 (q : ℚ) : ℚ :=
  (jsRound (10 * q) : ℚ) / 10

/-- A JS value returned by `getExpectedScore`: either a number, or the string
`q.toFixed(1)` (the source's out-of-range branch returns a string). -/
inductive JsValue where
  | num (q : ℚ)
  | fstr (q : ℚ)
deriving DecidableEq, Repr

/-- Applying JS `Number(·)` to a `JsValue`: a number is itself, a
`toFixed(1)` string reads back as the value rounded to one decimal. -/
def jsToNumber : JsValue → ℚ
  | JsValue.num q => q
  | JsValue.fstr q => round1 q

/-- The `breakpoints` table of `getExpectedScore` (src/app.js lines 548-599),
verbatim: each entry is `[minAbsDiff, maxAbsDiff, fraction]` with the fraction
chosen by the sign of `diff` exactly as in the source. -/
def breakpoints (diff : ℤ) : List (ℕ × ℕ × ℚ) :=
  [(0, 3, 50/100),
   (4, 10, if 0 ≤ diff then 51/100 else 49/100),
   (11, 17, if 0 ≤ diff then 52/100 else 48/100),
   (18, 25, if 0 ≤ diff then 53/100 else 47/100),
   (26, 32, if 0 ≤ diff then 54/100 else 46/100),
   (33, 39, if 0 ≤ diff then 55/100 else 45/100),
   (40, 46, if 0 ≤ diff then 56/100 else 44/100),
   (47, 53, if 0 ≤ diff then 57/100 else 43/100),
   (54, 61, if 0 ≤ diff then 58/100 else 42/100),
   (62, 68, if 0 ≤ diff then 59/100 else 41/100),
   (69, 76, if 0 ≤ diff then 60/100 else 40/100),
   (77, 83, if 0 ≤ diff then 61/100 else 39/100),
   (84, 91, if 0 ≤ diff then 62/100 else 38/100),
   (92, 98, if 0 ≤ diff then 63/100 else 37/100),
   (99, 106, if 0 ≤ diff then 64/100 else 36/100),
   (107, 113, if 0 ≤ diff then 65/100 else 35/100),
   (114, 121, if 0 ≤ diff then 66/100 else 34/100),
   (122, 129, if 0 ≤ diff then 67/100 else 33/100),
   (130, 137, if 0 ≤ diff then 68/100 else 32/100),
   (138, 145, if 0 ≤ diff then 69/100 else 31/100),
   (146, 153, if 0 ≤ diff then 70/100 else 30/100),
   (154, 162, if 0 ≤ diff then 71/100 else 29/100),
   (163, 170, if 0 ≤ diff then 72/100 else 28/100),
   (171, 179, if 0 ≤ diff then 73/100 else 27/100),
   (180, 188, if 0 ≤ diff then 74/100 else 26/100),
   (189, 197, if 0 ≤ diff then 75/100 else 25/100),
   (198, 206, if 0 ≤ diff then 76/100 else 24/100),
   (207, 215, if 0 ≤ diff then 77/100 else 23/100),
   (216, 225, if 0 ≤ diff then 78/100 else 22/100),
   (226, 235, if 0 ≤ diff then 79/100 else 21/100),
   (236, 245, if 0 ≤ diff then 80/100 else 20/100),
   (246, 256, if 0 ≤ diff then 81/100 else 19/100),
   (257, 267, if 0 ≤ diff then 82/100 else 18/100),
   (268, 278, if 0 ≤ diff then 83/100 else 17/100),
   (279, 290, if 0 ≤ diff then 84/100 else 16/100),
   (291, 302, if 0 ≤ diff then 85/100 else 15/100),
   (303, 315, if 0 ≤ diff then 86/100 else 14/100),
   (316, 328, if 0 ≤ diff then 87/100 else 13/100),
   (329, 344, if 0 ≤ diff then 88/100 else 12/100),
   (345, 357, if 0 ≤ diff then 89/100 else 11/100),
   (358, 374, if 0 ≤ diff then 90/100 else 10/100),
   (375, 391, if 0 ≤ diff then 91/100 else 9/100),
   (392, 411, if 0 ≤ diff then 92/100 else 8/100),
   (412, 432, if 0 ≤ diff then 93/100 else 7/100),
   (433, 456, if 0 ≤ diff then 94/100 else 6/100),
   (457, 484, if 0 ≤ diff then 95/100 else 5/100),
   (485, 517, if 0 ≤ diff then 96/100 else 4/100),
   (518, 559, if 0 ≤ diff then 97/100 else 3/100),
   (560, 619, if 0 ≤ diff then 98/100 else 2/100),
   (620, 734, if 0 ≤ diff then 99/100 else 1/100)]

/-- The `for (const [min, max, val] of breakpoints)` loop: first band whose
range contains `absDiff`. -/
def lookupBand (absDiff : ℕ) : List (ℕ × ℕ × ℚ) → Option ℚ
  | [] => none
  | (mn, mx, v) :: rest =>
    if mn ≤ absDiff ∧ absDiff ≤ mx then some v else lookupBand absDiff rest

/-- Model of `getExpectedScore` (src/app.js lines 545-606), with the global
`fullMark` threaded as an explicit parameter. -/
def getExpectedScore (fullMark : ℚ) (playerMark oppMark : ℤ) : JsValue :=
  let diff := playerMark - oppMark
  let absDiff := diff.natAbs
  match lookupBand absDiff (breakpoints diff) with
  | some v => JsValue.num (fullMark * v)
  | none => if 0 ≤ diff then JsValue.fstr fullMark else JsValue.num 0

/-- A player row as the rating engine sees it after the upstream
`isValidPlayerRow` filter: `player[0]` is the name, `parseInt(player[1])` the
rating, `parseInt(player[2])` the K factor, `player[3+i]` the round tokens and
`parseFloat(player[3+roundCount])` the total score. -/
structure Player where
  name : String
  rating : ℤ
  kFactor : ℤ
  tokens : List String
  totalScore : ℚ
deriving DecidableEq, Repr

/-- One computed output row of `calculateGroup` (src/app.js lines 214-226). -/
structure ComputedRow where
  seq : ℕ
  name : String
  rating : ℤ
  kFactor : ℤ
  roundTokens : List String
  totalScore : ℚ
  avgOpponent : ℤ
  expected : ℚ
  change : ℚ
  finalRating : ℤ
deriving DecidableEq, Repr

/-- Body of the round loop of `calculateGroup` (src/app.js lines 197-206):
resolve round token `i`, add the referenced player's rating to the running
total or count the round as empty.  `acc` is `(total, empty)`. -/
def roundStep (players : List Player) (tokens : List String) (acc : ℤ × ℕ)
    (i : ℕ) : ℤ × ℕ :=
  let parsed := parseOpponentToken (tokens.get? i)
  let opponentIndex : ℤ :=
    match parsed.opponentId with
    | some n => if n = 0 then -1 else n - 1
    | none => -1
  if 0 ≤ opponentIndex then
    match players.get? opponentIndex.toNat with
    | some opp => (acc.1 + opp.rating, acc.2)
    | none => (acc.1, acc.2 + 1)
  else (acc.1, acc.2 + 1)

/-- The whole round loop: `(total, empty)` after the `roundCount` iterations. -/
def roundTotals (players : List Player) (tokens : List String)
    (roundCount : ℕ) : ℤ × ℕ :=
  (List.range roundCount).foldl (roundStep players tokens) (0, 0)

/-- One iteration of the `players.map` in `calculateGroup`
(src/app.js lines 187-227): compute the derived row for player `p` at
0-based position `index`. -/
def computeRow (roundCount : ℕ) (fullMark : ℚ) (players : List Player)
    (index : ℕ) (p : Player) : ComputedRow :=
  let t := roundTotals players p.tokens roundCount
  let divisor : ℕ := roundCount - t.2
  let avgOpponent : ℤ := if 0 < divisor then ⌈(t.1 : ℚ) / (divisor : ℚ)⌉ else 0
  let expected : ℚ := round1 (jsToNumber (getExpectedScore fullMark p.rating avgOpponent))
  let change : ℚ := (p.totalScore - expected) * (p.kFactor : ℚ)
  { seq := index + 1
    name := p.name
    rating := p.rating
    kFactor := p.kFactor
    roundTokens := p.tokens.take roundCount
    totalScore := p.totalScore
    avgOpponent := avgOpponent
    expected := expected
    change := change
    finalRating := jsRound ((p.rating : ℚ) + change) }

/-- Model of `calculateGroup` (src/app.js lines 185-227), restricted to the
computed rows (`updatedPlayers`); the sheet-layout rows around them are
presentation glue. -/
def calculateGroup (roundCount : ℕ) (fullMark : ℚ) (players : List Player) :
    List ComputedRow :=
  players.enum.map fun ip => computeRow roundCount fullMark players ip.1 ip.2

/-- Characters Excel forbids in sheet names, replaced by `_` in
`sanitizeSheetName` (src/app.js line 31). -/
def forbiddenChar (c : Char) : Bool :=
  c = ':' || c = '\\' || c = '/' || c = '?' || c = '*' || c = '[' || c = ']'

/-- The `replace(/\.[^/.]+$/, "")` step of `sanitizeSheetName`: drop a trailing
`.ext` when the extension is nonempty and contains neither `/` nor `.`. -/
def stripExtension (l : List Char) : List Char :=
  let revTail := l.reverse.takeWhile fun c => !(c = '.' || c = '/')
  if revTail ≠ [] ∧ l.reverse.get? revTail.length = some '.' then
    l.take (l.length - revTail.length - 1)
  else l

/-- Model of `sanitizeSheetName` (src/app.js lines 27-34). -/
def sanitizeSheetName (name : String) : String :=
  let cleaned :=
    jsTrimList ((stripExtension name.data).map fun c =>
      if forbiddenChar c then '_' else c)
  let base := if cleaned = [] then "Group".data else cleaned
  ⟨base.take 31⟩

/-- Decimal digit character, as produced by JS string interpolation. -/
def digitChar (d : ℕ) : Char :=
  match d with
  | 0 => '0' | 1 => '1' | 2 => '2' | 3 => '3' | 4 => '4'
  | 5 => '5' | 6 => '6' | 7 => '7' | 8 => '8' | _ => '9'

/-- Decimal representation of a natural number, most significant digit first
(the JS template literal in the `_${i}` suffix). -/
def natDecimal (n : ℕ) : List Char :=
  if h : n < 10 then [digitChar n]
  else natDecimal (n / 10) ++ [digitChar (n % 10)]
decreasing_by exact Nat.div_lt_self (by omega) (by omega)

/-- The candidate name tried by `makeUniqueSheetName` for suffix index `i`:
`baseName.slice(0, Math.max(0, 31 - suffix.length)) + suffix` with suffix
`` `_${i}` `` (src/app.js lines 46-48). -/
def sheetCandidate (baseName : String) (i : ℕ) : String :=
  let suffix := '_' :: natDecimal i
  ⟨baseName.data.take (31 - suffix.length) ++ suffix⟩

/-- Length of the longest name in `existing`; used to bound the suffix search
of `makeUniqueSheetName`. -/
def maxLen (existing : List String) : ℕ :=
  existing.foldr (fun s m => max s.length m) 0

/-- The `while (true)` suffix loop of `makeUniqueSheetName` with explicit
fuel: try `i`, `i+1`, ... until a candidate is not yet used.  The fuel value
supplied by `makeUniqueSheetName` is proven sufficient (the loop always exits
before exhausting it, see `findFreeFrom_spec` and `exists_free_le`), so the
fuel-out fallback is unreachable and the model agrees with the unbounded
source loop. -/
def findFreeFrom (b : String) (ex : List String) : ℕ → ℕ → ℕ
  | 0, i => i
  | fuel + 1, i =>
    if sheetCandidate b i ∈ ex then findFreeFrom b ex fuel (i + 1) else i

/-- Model of `makeUniqueSheetName` (src/app.js lines 36-55): keep the base
name (cut to 31 characters) if unused, otherwise append the first free
`_2`, `_3`, ... suffix. -/
def makeUniqueSheetName (baseName : String) (existing : List String) : String :=
  let name : String := ⟨baseName.data.take 31⟩
  if name ∈ existing then
    sheetCandidate baseName (findFreeFrom baseName existing (10 ^ maxLen existing) 2)
  else name

/-- The `[minAbsDiff, maxAbsDiff]` columns of the band table, which do not
depend on the sign of `diff`. -/
def bandKeys : List (ℕ × ℕ) :=
  [(0, 3), (4, 10), (11, 17), (18, 25), (26, 32), (33, 39), (40, 46),
   (47, 53), (54, 61), (62, 68), (69, 76), (77, 83), (84, 91), (92, 98),
   (99, 106), (107, 113), (114, 121), (122, 129), (130, 137), (138, 145),
   (146, 153), (154, 162), (163, 170), (171, 179), (180, 188), (189, 197),
   (198, 206), (207, 215), (216, 225), (226, 235), (236, 245), (246, 256),
   (257, 267), (268, 278), (279, 290), (291, 302), (303, 315), (316, 328),
   (329, 344), (345, 357), (358, 374), (375, 391), (392, 411), (412, 432),
   (433, 456), (457, 484), (485, 517), (518, 559), (560, 619), (620, 734)]

/-- Scenario A group (spec §8): one player rated 1500 with K = 20 who met a
1500-rated opponent in all four rounds and scored 2.5 points. -/
def playerA : Player :=
  ⟨"A", 1500, 20, ["2", "2", "2", "2"], 5/2⟩

/-- The 1500-rated opponent of Scenario A. -/
def playerB : Player :=
  ⟨"B", 1500, 1, [], 0⟩

/-- The two-player group realising Scenario A. -/
def scenarioAPlayers : List Player :=
  [playerA, playerB]

/-- A one-player group whose single round token `"1"` references the player
themselves (`opponentId` equals the player's own 1-based position). -/
def selfPlayer : Player :=
  ⟨"S", 1000, 20, ["1"], 1⟩

/-- A set of used sheet names containing the base name `"x"` and the
candidate `x_i` for every suffix index `2 ≤ i < 10^30`, so that the suffix
loop can only stop at a suffix of more than 30 digits. -/
def hugeExisting : List String :=
  "x" :: (List.range' 2 (10 ^ 30 - 2)).map (sheetCandidate "x")

/-- The key columns of `breakpoints` are `bandKeys`, whatever the sign. -/
theorem breakpoints_keys (diff : ℤ) :
    (breakpoints diff).map (fun b => (b.1, b.2.1)) = bandKeys :=
  rfl

/-- For a nonnegative difference the table evaluates to its `diff ≥ 0`
column. -/
theorem breakpoints_of_nonneg {d : ℤ} (h : 0 ≤ d) :
    breakpoints d = breakpoints 1 := by
  simp [breakpoints, h]

/-- For a negative difference the table evaluates to its `diff < 0` column. -/
theorem breakpoints_of_neg {d : ℤ} (h : d < 0) :
    breakpoints d = breakpoints (-1) := by
  have h' : ¬ (0 ≤ d) := not_le.mpr h
  simp [breakpoints, h']

/-- If no band of `l` contains `a`, the band loop returns nothing. -/
theorem lookupBand_eq_none {a : ℕ} {l : List (ℕ × ℕ × ℚ)}
    (h : ∀ b ∈ l, ¬ (b.1 ≤ a ∧ a ≤ b.2.1)) : lookupBand a l = none := by
  induction l with
  | nil => rfl
  | cons b rest ih =>
    obtain ⟨mn, mx, v⟩ := b
    rw [lookupBand, if_neg (h _ (List.mem_cons_self _ _))]
    exact ih fun b hb => h b (List.mem_cons_of_mem _ hb)

/-- Every band upper bound in the table is at most 734. -/
theorem breakpoints_max_le (diff : ℤ) :
    ∀ b ∈ breakpoints diff, b.2.1 ≤ 734 := by
  intro b hb
  have hk : (b.1, b.2.1) ∈ bandKeys := by
    rw [← breakpoints_keys diff]
    exact List.mem_map_of_mem _ hb
  have hall : ∀ k ∈ bandKeys, k.2 ≤ 734 := by decide
  exact hall _ hk

/-- Above 734 the band loop finds nothing. -/
theorem lookupBand_of_gt {diff : ℤ} {a : ℕ} (h : 734 < a) :
    lookupBand a (breakpoints diff) = none :=
  lookupBand_eq_none fun b hb hc =>
    absurd hc.2 (not_le.mpr (lt_of_le_of_lt (breakpoints_max_le diff b hb) h))

/-- C2, counterexample: the table does not have 49 bands (it has 50). -/
theorem claim_C2_cex : (breakpoints 0).length ≠ 49 := by
  decide

set_option maxRecDepth 8000 in
/-- C2, amended: the expected-score lookup table is a fixed, ordered,
non-overlapping sequence of exactly 50 (not 49) `[minAbsDiff, maxAbsDiff,
fraction]` bands whose ranges are pairwise disjoint and together span
`0..734`: every `absDiff` in `[0, 734]` lies in exactly one band. -/
theorem claim_C2 (diff : ℤ) :
    (breakpoints diff).length = 50 ∧
    ∀ a : ℕ, a ≤ 734 →
      ((breakpoints diff).countP fun b => decide (b.1 ≤ a ∧ a ≤ b.2.1)) = 1 := by
  constructor
  · rfl
  · intro a ha
    have hmap := List.countP_map (fun k : ℕ × ℕ => decide (k.1 ≤ a ∧ a ≤ k.2))
      (fun b : ℕ × ℕ × ℚ => (b.1, b.2.1)) (breakpoints diff)
    rw [breakpoints_keys] at hmap
    have hcomp : ((fun k : ℕ × ℕ => decide (k.1 ≤ a ∧ a ≤ k.2)) ∘
        (fun b : ℕ × ℕ × ℚ => (b.1, b.2.1))) =
        fun b : ℕ × ℕ × ℚ => decide (b.1 ≤ a ∧ a ≤ b.2.1) := rfl
    rw [hcomp] at hmap
    rw [← hmap]
    have H : ∀ a' : ℕ, a' < 735 →
        (bandKeys.countP fun k => decide (k.1 ≤ a' ∧ a' ≤ k.2)) = 1 := by decide
    exact H a (by omega)

/-- C2, witness: `absDiff = 100` lies in exactly one band. -/
theorem claim_C2_witness :
    ((breakpoints 7).countP fun b => decide (b.1 ≤ 100 ∧ 100 ≤ b.2.1)) = 1 :=
  (claim_C2 7).2 100 (by decide)

/-- C3: above `absDiff = 734` the function returns the formatted `fullMark`
string for `diff ≥ 0` and the number `0` for `diff < 0`, while at
`absDiff = 734` the last band's fraction `0.99` / `0.01` still applies. -/
theorem claim_C3 :
    (∀ (p o : ℤ) (fm : ℚ), 734 < (p - o).natAbs →
      getExpectedScore fm p o =
        if 0 ≤ p - o then JsValue.fstr fm else JsValue.num 0) ∧
    (∀ (p o : ℤ) (fm : ℚ), (p - o).natAbs = 734 →
      getExpectedScore fm p o =
        JsValue.num (fm * (if 0 ≤ p - o then 99/100 else 1/100))) := by
  constructor
  · intro p o fm h
    simp only [getExpectedScore]
    rw [lookupBand_of_gt h]
  · intro p o fm h
    simp only [getExpectedScore]
    rw [h]
    by_cases hd : 0 ≤ p - o
    · rw [breakpoints_of_nonneg hd, if_pos hd]
      norm_num [breakpoints, lookupBand]
      rw [if_pos (sub_nonneg.mp hd)]
    · rw [breakpoints_of_neg (not_le.mp hd), if_neg hd]
      norm_num [breakpoints, lookupBand]
      rw [if_neg fun hh => hd (sub_nonneg.mpr hh)]

/-- C3, witness: `absDiff = 800` saturates, `absDiff = 734` still uses the
last band. -/
theorem claim_C3_witness :
    getExpectedScore 4 2300 1500 =
      (if (0:ℤ) ≤ 2300 - 1500 then JsValue.fstr 4 else JsValue.num 0) ∧
    getExpectedScore 4 1500 2234 =
      JsValue.num (4 * (if (0:ℤ) ≤ 1500 - 2234 then 99/100 else 1/100)) :=
  ⟨claim_C3.1 2300 1500 4 (by decide), claim_C3.2 1500 2234 4 (by decide)⟩

/-- C6: at equal `absDiff` the two fractions chosen for a nonnegative and a
negative `diff` sum to 1 in every band (in the `[0,3]` dead band both are
`0.5`), and equal ratings give `fullMark * 0.5`. -/
theorem claim_C6 :
    (∀ dp dn : ℤ, 0 ≤ dp → dn < 0 →
      List.Forall₂ (fun b b' : ℕ × ℕ × ℚ =>
          b.1 = b'.1 ∧ b.2.1 = b'.2.1 ∧ b.2.2 + b'.2.2 = 1)
        (breakpoints dp) (breakpoints dn)) ∧
    (∀ d : ℤ, (breakpoints d).head? = some (0, 3, 50/100)) ∧
    (∀ (fm : ℚ) (r : ℤ), getExpectedScore fm r r = JsValue.num (fm * (50/100))) := by
  refine ⟨?_, ?_, ?_⟩
  · intro dp dn hp hn
    rw [breakpoints_of_nonneg hp, breakpoints_of_neg hn]
    norm_num [breakpoints, List.forall₂_cons]
  · intro d
    rfl
  · intro fm r
    simp [getExpectedScore, breakpoints, lookupBand]

/-- C6, witness: the symmetry relation at `diff = 3` against `diff = -3`. -/
theorem claim_C6_witness :
    List.Forall₂ (fun b b' : ℕ × ℕ × ℚ =>
        b.1 = b'.1 ∧ b.2.1 = b'.2.1 ∧ b.2.2 + b'.2.2 = 1)
      (breakpoints 3) (breakpoints (-3)) :=
  claim_C6.1 3 (-3) (by decide) (by decide)

/-- Folding two functions that agree on the list's elements gives the same
result. -/
theorem foldlCongrMem {α β : Type _} (f g : β → α → β) :
    ∀ (l : List α) (a : β), (∀ b x, x ∈ l → f b x = g b x) →
      l.foldl f a = l.foldl g a
  | [], _, _ => rfl
  | x :: t, a, h => by
    rw [List.foldl_cons, List.foldl_cons, h a x (List.mem_cons_self _ _)]
    exact foldlCongrMem f g t _ fun b y hy => h b y (List.mem_cons_of_mem _ hy)

/-- The round loop only looks at the first `roundCount` tokens. -/
theorem roundTotals_take (players : List Player) (tokens : List String)
    (rc : ℕ) :
    roundTotals players (tokens.take rc) rc = roundTotals players tokens rc := by
  unfold roundTotals
  apply foldlCongrMem
  intro acc i hi
  unfold roundStep
  rw [List.get?_take (List.mem_range.mp hi)]

/-- The `avgOpponent` field of a computed row, unfolded. -/
theorem computeRow_avgOpponent (rc : ℕ) (fm : ℚ) (players : List Player)
    (idx : ℕ) (p : Player) :
    (computeRow rc fm players idx p).avgOpponent =
      if 0 < rc - (roundTotals players p.tokens rc).2
      then ⌈((roundTotals players p.tokens rc).1 : ℚ) /
            ((rc - (roundTotals players p.tokens rc).2 : ℕ) : ℚ)⌉
      else 0 :=
  rfl

/-- The `expected` field of a computed row, unfolded: the one-decimal rounding
of the numeric value of `getExpectedScore`. -/
theorem computeRow_expected (rc : ℕ) (fm : ℚ) (players : List Player)
    (idx : ℕ) (p : Player) :
    (computeRow rc fm players idx p).expected =
      round1 (jsToNumber (getExpectedScore fm p.rating
        (computeRow rc fm players idx p).avgOpponent)) :=
  rfl

/-- The `change` field of a computed row, unfolded. -/
theorem computeRow_change (rc : ℕ) (fm : ℚ) (players : List Player)
    (idx : ℕ) (p : Player) :
    (computeRow rc fm players idx p).change =
      (p.totalScore - (computeRow rc fm players idx p).expected) *
        (p.kFactor : ℚ) :=
  rfl

/-- The `finalRating` field of a computed row, unfolded. -/
theorem computeRow_finalRating (rc : ℕ) (fm : ℚ) (players : List Player)
    (idx : ℕ) (p : Player) :
    (computeRow rc fm players idx p).finalRating =
      jsRound ((p.rating : ℚ) + (computeRow rc fm players idx p).change) :=
  rfl

/-- C1, counterexample: with a single player whose one round token `"1"`
references the player's own position, the loop adds the player's own rating
1000 to the opponent total and counts no empty round (the claim predicts
total 0 and one empty round), so `avgOpponentRating` becomes 1000, not 0. -/
theorem claim_C1_cex :
    roundTotals [selfPlayer] selfPlayer.tokens 1 = (1000, 0) ∧
    (computeRow 1 2 [selfPlayer] 0 selfPlayer).avgOpponent = 1000 := by
  constructor
  · decide
  · rw [computeRow_avgOpponent,
      show roundTotals [selfPlayer] selfPlayer.tokens 1 = (1000, 0) from by decide]
    norm_num

/-- C1, amended: a round token that resolves to any 1-based index inside the
group — including the player's own position — is treated as a played round:
it adds the referenced player's rating to the opponent total and leaves
`emptyCount` unchanged.  (Only a null/0 id or an index outside the group
counts as empty.) -/
theorem claim_C1 (players : List Player) (tokens : List String) (acc : ℤ × ℕ)
    (i : ℕ) (n : ℤ) (opp : Player)
    (h1 : (parseOpponentToken (tokens.get? i)).opponentId = some n)
    (h2 : 1 ≤ n)
    (h3 : players.get? (n - 1).toNat = some opp) :
    roundStep players tokens acc i = (acc.1 + opp.rating, acc.2) := by
  have hn0 : ¬ n = 0 := by omega
  have hge : (0:ℤ) ≤ n - 1 := by omega
  have ht : (n - 1).toNat = n.toNat - 1 := by omega
  rw [List.get?_eq_getElem?, ht] at h3
  simp only [roundStep]
  rw [h1]
  simp [hn0, hge, h3]

/-- C1, witness: the self-reference scenario, where the referenced player is
the row's own player. -/
theorem claim_C1_witness :
    roundStep [selfPlayer] selfPlayer.tokens (0, 0) 0 =
      (0 + selfPlayer.rating, 0) :=
  claim_C1 [selfPlayer] selfPlayer.tokens (0, 0) 0 1 selfPlayer (by decide)
    (by decide) rfl

/-- C5: a round whose token parses to no id or id 0, or to an index outside
the group, is counted as empty and contributes nothing to the opponent-rating
total; and when every round is empty (`divisor = 0`) the average opponent
rating is 0 with no division taking place. -/
theorem claim_C5 :
    (∀ (players : List Player) (tokens : List String) (acc : ℤ × ℕ) (i : ℕ),
      ((parseOpponentToken (tokens.get? i)).opponentId = none ∨
        (parseOpponentToken (tokens.get? i)).opponentId = some 0 ∨
        (∃ n : ℤ, (parseOpponentToken (tokens.get? i)).opponentId = some n ∧
          (n < 1 ∨ (players.length : ℤ) < n))) →
      roundStep players tokens acc i = (acc.1, acc.2 + 1)) ∧
    (∀ (rc : ℕ) (fm : ℚ) (players : List Player) (idx : ℕ) (p : Player),
      rc - (roundTotals players p.tokens rc).2 = 0 →
      (computeRow rc fm players idx p).avgOpponent = 0) := by
  constructor
  · intro players tokens acc i h
    rcases h with h | h | ⟨n, h, hn⟩
    · simp only [roundStep]
      rw [h]
      norm_num
    · simp only [roundStep]
      rw [h]
      norm_num
    · simp only [roundStep]
      rw [h]
      rcases hn with hn | hn
      · by_cases hn0 : n = 0
        · simp [hn0]
        · have hneg : ¬ ((0:ℤ) ≤ n - 1) := by omega
          simp [hn0, hneg]
      · have hn0 : ¬ n = 0 := by omega
        have hge : (0:ℤ) ≤ n - 1 := by omega
        have ht : (n - 1).toNat = n.toNat - 1 := by omega
        have hnone : players.get? (n - 1).toNat = none :=
          List.get?_eq_none.mpr (by omega)
        rw [List.get?_eq_getElem?, ht] at hnone
        simp [hn0, hge, hnone]
  · intro rc fm players idx p h
    rw [computeRow_avgOpponent, h]
    norm_num

/-- C5, witness: an unparseable token gives an empty round, and a player
whose every round is empty gets average opponent rating 0. -/
theorem claim_C5_witness :
    roundStep [selfPlayer] ["abc"] (0, 0) 0 = (0, 0 + 1) ∧
    (computeRow 2 4 [] 0 playerB).avgOpponent = 0 :=
  ⟨claim_C5.1 [selfPlayer] ["abc"] (0, 0) 0 (Or.inl (by decide)),
   claim_C5.2 2 4 [] 0 playerB (by decide)⟩

/-- C4: every computed row satisfies the spec's invariants: `avgOpponent` is
the ceiling of total over divisor when the divisor is positive, `expected` is
the one-decimal rounding of the expected score at the row's own rating and
average, `change = (totalScore - expected) * kFactor`, and `finalRating`
rounds `rating + change` to the nearest integer. -/
theorem claim_C4 (rc : ℕ) (fm : ℚ) (players : List Player)
    (row : ComputedRow) (hrow : row ∈ calculateGroup rc fm players) :
    (0 < rc - (roundTotals players row.roundTokens rc).2 →
      row.avgOpponent = ⌈((roundTotals players row.roundTokens rc).1 : ℚ) /
        ((rc - (roundTotals players row.roundTokens rc).2 : ℕ) : ℚ)⌉) ∧
    row.expected =
      round1 (jsToNumber (getExpectedScore fm row.rating row.avgOpponent)) ∧
    row.change = (row.totalScore - row.expected) * (row.kFactor : ℚ) ∧
    row.finalRating = jsRound ((row.rating : ℚ) + row.change) := by
  obtain ⟨⟨idx, p⟩, hmem, rfl⟩ := List.mem_map.mp hrow
  have htok : (computeRow rc fm players idx p).roundTokens = p.tokens.take rc :=
    rfl
  have hT : roundTotals players (computeRow rc fm players idx p).roundTokens rc =
      roundTotals players p.tokens rc := by
    rw [htok, roundTotals_take]
  refine ⟨?_, ?_, ?_, ?_⟩
  · intro hdiv
    rw [hT] at hdiv ⊢
    rw [computeRow_avgOpponent, if_pos hdiv]
  · exact computeRow_expected rc fm players idx p
  · exact computeRow_change rc fm players idx p
  · exact computeRow_finalRating rc fm players idx p

/-- C4, witness: the invariants at the Scenario A row. -/
theorem claim_C4_witness :
    (computeRow 4 4 scenarioAPlayers 0 playerA).finalRating =
      jsRound (((computeRow 4 4 scenarioAPlayers 0 playerA).rating : ℚ) +
        (computeRow 4 4 scenarioAPlayers 0 playerA).change) :=
  (claim_C4 4 4 scenarioAPlayers (computeRow 4 4 scenarioAPlayers 0 playerA)
    (List.mem_map.mpr ⟨(0, playerA), by
      rw [show scenarioAPlayers.enum = [(0, playerA), (1, playerB)] from rfl]
      exact List.mem_cons_self _ _, rfl⟩)).2.2.2

/-- C8: in Scenario A the computed row has average opponent rating 1500,
expected score 2.0, rating change 10.0 and final rating 1510. -/
theorem claim_C8 :
    ((calculateGroup 4 4 scenarioAPlayers).map fun r =>
      (r.avgOpponent, r.expected, r.change, r.finalRating)).head? =
      some (1500, 2, 10, 1510) := by
  have h0 : roundTotals scenarioAPlayers playerA.tokens 4 = (6000, 0) := by
    decide
  have havg : (computeRow 4 4 scenarioAPlayers 0 playerA).avgOpponent = 1500 := by
    rw [computeRow_avgOpponent, h0]
    norm_num
  have hexp : (computeRow 4 4 scenarioAPlayers 0 playerA).expected = 2 := by
    rw [computeRow_expected, havg]
    show round1 (jsToNumber (getExpectedScore 4 1500 1500)) = 2
    rw [show getExpectedScore 4 1500 1500 = JsValue.num (4 * (50/100)) from by
      norm_num [getExpectedScore, breakpoints, lookupBand]]
    norm_num [jsToNumber, round1, jsRound]
  have hch : (computeRow 4 4 scenarioAPlayers 0 playerA).change = 10 := by
    rw [computeRow_change, hexp]
    show ((5:ℚ)/2 - 2) * ((20:ℤ) : ℚ) = 10
    norm_num
  have hfin : (computeRow 4 4 scenarioAPlayers 0 playerA).finalRating = 1510 := by
    rw [computeRow_finalRating, hch]
    show jsRound (((1500:ℤ) : ℚ) + 10) = 1510
    norm_num [jsRound]
  rw [show calculateGroup 4 4 scenarioAPlayers =
    [computeRow 4 4 scenarioAPlayers 0 playerA,
     computeRow 4 4 scenarioAPlayers 1 playerB] from rfl]
  simp only [List.map_cons, List.head?_cons]
  rw [havg, hexp, hch, hfin]

/-- A decimal digit has code point between 48 and 57. -/
theorem digit_toNat {c : Char} (h : isDigit10 c = true) :
    48 ≤ c.toNat ∧ c.toNat ≤ 57 := by
  simpa [isDigit10, Bool.and_eq_true, decide_eq_true_eq] using h

/-- A decimal digit is not trimmed as whitespace. -/
theorem digit_not_space {c : Char} (h : isDigit10 c = true) :
    isJsSpace c = false := by
  have hb := digit_toNat h
  rw [Bool.eq_false_iff]
  intro hs
  simp only [isJsSpace, Bool.or_eq_true, decide_eq_true_eq] at hs
  omega

/-- A decimal digit is not a `W`/`D`/`L` result marker. -/
theorem digit_not_marker {c : Char} (h : isDigit10 c = true) :
    isMarker c = false := by
  have hb := digit_toNat h
  rw [Bool.eq_false_iff]
  intro hm
  simp only [isMarker, Bool.or_eq_true, decide_eq_true_eq] at hm
  rcases hm with ((((rfl | rfl) | rfl) | rfl) | rfl) | rfl <;>
    exact absurd hb (by decide)

/-- A decimal digit is not a sign character. -/
theorem digit_ne_sign {c : Char} (h : isDigit10 c = true) :
    c ≠ '-' ∧ c ≠ '+' := by
  have hb := digit_toNat h
  constructor <;> rintro rfl <;> exact absurd hb (by decide)

/-- Taking while a predicate holds splits off exactly a satisfying run
followed by a failing head. -/
theorem takeWhile_run (p : Char → Bool) :
    ∀ (ds rest : List Char), (∀ c ∈ ds, p c = true) →
      (∀ c, rest.head? = some c → p c = false) →
      (ds ++ rest).takeWhile p = ds := by
  intro ds
  induction ds with
  | nil =>
    intro rest _ hrest
    cases rest with
    | nil => rfl
    | cons r t =>
      simp [List.takeWhile_cons, hrest r rfl]
  | cons d t ih =>
    intro rest hds hrest
    rw [List.cons_append, List.takeWhile_cons,
      hds d (List.mem_cons_self _ _)]
    simp [ih rest (fun c hc => hds c (List.mem_cons_of_mem _ hc)) hrest]

/-- Running `parseInt(·, 10)` on a digit run followed by non-digit
characters parses the run (a prefix-accepting parse). -/
theorem jsParseInt10_digitRun (ds rest : List Char) (hne : ds ≠ [])
    (hds : ∀ c ∈ ds, isDigit10 c = true)
    (hrest : ∀ c, rest.head? = some c → isDigit10 c = false) :
    jsParseInt10 (ds ++ rest) = some (digitsToNat ds : ℤ) := by
  obtain ⟨d, ds', rfl⟩ : ∃ d ds', ds = d :: ds' := by
    cases ds with
    | nil => exact absurd rfl hne
    | cons d t => exact ⟨d, t, rfl⟩
  have hd := hds d (List.mem_cons_self _ _)
  have hdrop : ((d :: ds') ++ rest).dropWhile isJsSpace =
      (d :: ds') ++ rest := by
    rw [List.cons_append, List.dropWhile_cons, digit_not_space hd]
    rfl
  have hsign := digit_ne_sign hd
  simp only [jsParseInt10]
  rw [hdrop]
  simp only [List.cons_append, List.head?_cons]
  have e1 : (some d = some '-') = False :=
    eq_false fun hc => hsign.1 (Option.some.inj hc)
  have e2 : (some d = some '+') = False :=
    eq_false fun hc => hsign.2 (Option.some.inj hc)
  simp only [e1, e2, or_self, if_false]
  rw [← List.cons_append, takeWhile_run isDigit10 (d :: ds') rest hds hrest]
  simp

/-- C7: the token parser is total: a missing or blank token gives
`{opponentId := none, display := ""}`; a leading case-insensitive `W`/`D`/`L`
marker is stripped before `parseInt` but kept verbatim in `display`; without
a marker the whole trimmed token is parsed; `opponentId` is exactly the
`parseInt` result, hence `none` (never an error) on parse failure. -/
theorem claim_C7 :
    (parseOpponentToken none = ⟨none, ""⟩) ∧
    (∀ s : String, jsTrimList s.data = [] →
      parseOpponentToken (some s) = ⟨none, ""⟩) ∧
    (∀ (s : String) (c : Char) (rest : List Char),
      jsTrimList s.data = c :: rest → isMarker c = true →
      parseOpponentToken (some s) = ⟨jsParseInt10 rest, ⟨c :: rest⟩⟩) ∧
    (∀ (s : String) (c : Char) (rest : List Char),
      jsTrimList s.data = c :: rest → isMarker c = false →
      parseOpponentToken (some s) = ⟨jsParseInt10 (c :: rest), ⟨c :: rest⟩⟩) := by
  refine ⟨rfl, ?_, ?_, ?_⟩
  · intro s h
    simp only [parseOpponentToken]
    rw [h]
  · intro s c rest h hm
    simp only [parseOpponentToken]
    rw [h]
    simp [hm]
  · intro s c rest h hm
    simp only [parseOpponentToken]
    rw [h]
    simp [hm]

/-- C7, witness: a blank token, a marker token and a bare-number token. -/
theorem claim_C7_witness :
    parseOpponentToken (some " ") = ⟨none, ""⟩ ∧
    parseOpponentToken (some "W3") = ⟨jsParseInt10 ['3'], ⟨'W' :: ['3']⟩⟩ ∧
    parseOpponentToken (some "7") = ⟨jsParseInt10 ['7', ], ⟨'7' :: []⟩⟩ :=
  ⟨claim_C7.2.1 " " (by decide),
   claim_C7.2.2.1 "W3" 'W' ['3'] (by decide) (by decide),
   claim_C7.2.2.2 "7" '7' [] (by decide) (by decide)⟩

/-- C10: a token whose trimmed form is an optional `W`/`D`/`L` marker, then a
nonempty digit run, then a non-digit tail (for example `"3abc"` or `"W3x"`)
parses to the value of the digit run, not to `none`. -/
theorem claim_C10 :
    (∀ (s : String) (ds rest : List Char), jsTrimList s.data = ds ++ rest →
      ds ≠ [] → (∀ c ∈ ds, isDigit10 c = true) →
      (∀ c, rest.head? = some c → isDigit10 c = false) →
      parseOpponentToken (some s) =
        ⟨some (digitsToNat ds : ℤ), ⟨ds ++ rest⟩⟩) ∧
    (∀ (s : String) (m : Char) (ds rest : List Char),
      jsTrimList s.data = m :: (ds ++ rest) → isMarker m = true →
      ds ≠ [] → (∀ c ∈ ds, isDigit10 c = true) →
      (∀ c, rest.head? = some c → isDigit10 c = false) →
      parseOpponentToken (some s) =
        ⟨some (digitsToNat ds : ℤ), ⟨m :: (ds ++ rest)⟩⟩) := by
  constructor
  · intro s ds rest h hne hds hrest
    obtain ⟨d, ds', rfl⟩ : ∃ d ds', ds = d :: ds' := by
      cases ds with
      | nil => exact absurd rfl hne
      | cons d t => exact ⟨d, t, rfl⟩
    rw [List.cons_append] at h
    have hd := hds d (List.mem_cons_self _ _)
    simp only [parseOpponentToken]
    rw [h]
    simp only [digit_not_marker hd, if_neg Bool.false_ne_true]
    rw [← List.cons_append,
      jsParseInt10_digitRun (d :: ds') rest hne hds hrest]
  · intro s m ds rest h hm hne hds hrest
    simp only [parseOpponentToken]
    rw [h]
    simp only [hm, eq_self_iff_true, if_true]
    rw [jsParseInt10_digitRun ds rest hne hds hrest]

/-- Unfolding of `natDecimal` below 10. -/
theorem natDecimal_lt10 {n : ℕ} (h : n < 10) : natDecimal n = [digitChar n] := by
  rw [natDecimal]
  exact dif_pos h

/-- Unfolding of `natDecimal` from 10 on. -/
theorem natDecimal_ge10 {n : ℕ} (h : ¬ n < 10) :
    natDecimal n = natDecimal (n / 10) ++ [digitChar (n % 10)] := by
  rw [natDecimal]
  exact dif_neg h

/-- Digit characters are decimal digits. -/
theorem digitChar_isDigit (d : ℕ) : isDigit10 (digitChar d) = true := by
  unfold digitChar
  split <;> decide

/-- Reading back a digit character gives the digit value. -/
theorem digitVal_digitChar {d : ℕ} (h : d < 10) : digitVal (digitChar d) = d := by
  interval_cases d <;> decide

/-- Every character of a decimal representation is a digit. -/
theorem natDecimal_digits (n : ℕ) : ∀ c ∈ natDecimal n, isDigit10 c = true := by
  induction n using Nat.strong_induction_on with
  | _ n ih =>
    by_cases h : n < 10
    · rw [natDecimal_lt10 h]
      intro c hc
      rw [List.mem_singleton.mp hc]
      exact digitChar_isDigit n
    · rw [natDecimal_ge10 h]
      intro c hc
      rcases List.mem_append.mp hc with hc | hc
      · exact ih (n / 10) (Nat.div_lt_self (by omega) (by omega)) c hc
      · rw [List.mem_singleton.mp hc]
        exact digitChar_isDigit _

/-- Appending one digit multiplies the value by 10 and adds the digit. -/
theorem digitsToNat_append_singleton (l : List Char) (c : Char) :
    digitsToNat (l ++ [c]) = 10 * digitsToNat l + digitVal c := by
  unfold digitsToNat
  rw [List.foldl_append]
  rfl

/-- Reading a decimal representation back gives the number. -/
theorem digitsToNat_natDecimal (n : ℕ) : digitsToNat (natDecimal n) = n := by
  induction n using Nat.strong_induction_on with
  | _ n ih =>
    by_cases h : n < 10
    · rw [natDecimal_lt10 h]
      show digitsToNat [digitChar n] = n
      unfold digitsToNat
      simp [digitVal_digitChar h]
    · rw [natDecimal_ge10 h, digitsToNat_append_singleton,
        ih (n / 10) (Nat.div_lt_self (by omega) (by omega)),
        digitVal_digitChar (Nat.mod_lt _ (by omega))]
      omega

/-- Decimal representations are injective. -/
theorem natDecimal_inj {m n : ℕ} (h : natDecimal m = natDecimal n) : m = n := by
  have hv := congrArg digitsToNat h
  rwa [digitsToNat_natDecimal, digitsToNat_natDecimal] at hv

/-- A decimal representation is never empty. -/
theorem natDecimal_ne_nil (n : ℕ) : natDecimal n ≠ [] := by
  by_cases h : n < 10
  · rw [natDecimal_lt10 h]
    simp
  · rw [natDecimal_ge10 h]
    simp

/-- Powers of ten: `10^k` has `k + 1` decimal digits. -/
theorem natDecimal_length_pow (k : ℕ) :
    (natDecimal (10 ^ k)).length = k + 1 := by
  induction k with
  | zero =>
    rw [pow_zero, natDecimal_lt10 (by omega)]
    rfl
  | succ k ih =>
    have h10 : ¬ 10 ^ (k + 1) < 10 := by
      have : (10:ℕ) ^ 1 ≤ 10 ^ (k + 1) := Nat.pow_le_pow_right (by omega) (by omega)
      simp only [pow_one] at this
      omega
    have hdiv : 10 ^ (k + 1) / 10 = 10 ^ k := by
      rw [pow_succ]
      exact Nat.mul_div_cancel _ (by omega)
    rw [natDecimal_ge10 h10, List.length_append, hdiv, ih]
    rfl

/-- A number below `10^k` has at most `k` decimal digits (for `k ≥ 1`). -/
theorem natDecimal_length_le {n k : ℕ} (hk : 1 ≤ k) (h : n < 10 ^ k) :
    (natDecimal n).length ≤ k := by
  induction k generalizing n with
  | zero => omega
  | succ k ih =>
    by_cases h10 : n < 10
    · rw [natDecimal_lt10 h10, List.length_singleton]
      omega
    · have hk1 : 1 ≤ k := by
        by_contra hh
        have hz : k = 0 := by omega
        subst hz
        rw [pow_one] at h
        omega
      have hdiv : n / 10 < 10 ^ k := by
        rw [Nat.div_lt_iff_lt_mul (by omega)]
        calc n < 10 ^ (k + 1) := h
        _ = 10 ^ k * 10 := by rw [pow_succ]
      have hih := ih hk1 hdiv
      rw [natDecimal_ge10 h10, List.length_append]
      simp only [List.length_singleton]
      omega

/-- A number at least `10^k` has more than `k` decimal digits. -/
theorem natDecimal_length_ge {n k : ℕ} (h : 10 ^ k ≤ n) :
    k + 1 ≤ (natDecimal n).length := by
  induction k generalizing n with
  | zero =>
    cases hnd : natDecimal n with
    | nil => exact absurd hnd (natDecimal_ne_nil n)
    | cons a t =>
      simp [hnd]
  | succ k ih =>
    have h10 : ¬ n < 10 := by
      have hpw : (10:ℕ) ^ 1 ≤ 10 ^ (k + 1) := Nat.pow_le_pow_right (by omega) (by omega)
      rw [pow_one] at hpw
      omega
    have hdiv : 10 ^ k ≤ n / 10 := by
      rw [Nat.le_div_iff_mul_le (by omega)]
      calc 10 ^ k * 10 = 10 ^ (k + 1) := (pow_succ 10 k).symm
      _ ≤ n := h
    have hih := ih hdiv
    rw [natDecimal_ge10 h10, List.length_append]
    simp only [List.length_singleton]
    omega

/-- Length of a candidate sheet name. -/
theorem sheetCandidate_length (b : String) (i : ℕ) :
    (sheetCandidate b i).length =
      min (31 - ((natDecimal i).length + 1)) b.data.length +
        ((natDecimal i).length + 1) := by
  show (b.data.take (31 - ((natDecimal i).length + 1)) ++
    ('_' :: natDecimal i)).length = _
  rw [List.length_append, List.length_take, List.length_cons]

/-- A candidate with at most 30 suffix digits fits in 31 characters. -/
theorem sheetCandidate_length_le {b : String} {i : ℕ}
    (h : (natDecimal i).length ≤ 30) : (sheetCandidate b i).length ≤ 31 := by
  rw [sheetCandidate_length]
  have hm : min (31 - ((natDecimal i).length + 1)) b.data.length ≤
      31 - ((natDecimal i).length + 1) := min_le_left _ _
  omega

/-- A candidate is at least as long as its `_`-suffix. -/
theorem sheetCandidate_length_ge (b : String) (i : ℕ) :
    (natDecimal i).length + 1 ≤ (sheetCandidate b i).length := by
  rw [sheetCandidate_length]
  omega

/-- Every used name is at most `maxLen` long. -/
theorem length_le_maxLen : ∀ {ex : List String} {s : String},
    s ∈ ex → s.length ≤ maxLen ex := by
  intro ex
  induction ex with
  | nil =>
    intro s h
    cases h
  | cons a t ih =>
    intro s h
    rcases List.mem_cons.mp h with rfl | h
    · exact le_max_left _ _
    · exact le_trans (ih h) (le_max_right _ _)

/-- Candidates with suffix index at least `10^maxLen` are longer than every
used name, hence unused. -/
theorem sheetCandidate_big_notMem {b : String} {ex : List String} {i : ℕ}
    (h : 10 ^ maxLen ex ≤ i) : sheetCandidate b i ∉ ex := by
  intro hmem
  have h1 : (sheetCandidate b i).length ≤ maxLen ex := length_le_maxLen hmem
  have h2 := sheetCandidate_length_ge b i
  have h3 := natDecimal_length_ge h
  omega

/-- The fuelled suffix loop returns the first unused candidate, provided an
unused candidate exists within the fuel window. -/
theorem findFreeFrom_spec (b : String) (ex : List String) :
    ∀ (fuel i : ℕ),
      (∃ j, i ≤ j ∧ j < i + fuel ∧ sheetCandidate b j ∉ ex) →
      sheetCandidate b (findFreeFrom b ex fuel i) ∉ ex ∧
      i ≤ findFreeFrom b ex fuel i ∧
      ∀ m, i ≤ m → m < findFreeFrom b ex fuel i → sheetCandidate b m ∈ ex := by
  intro fuel
  induction fuel with
  | zero =>
    intro i hex
    obtain ⟨j, hj1, hj2, _⟩ := hex
    exact absurd hj2 (by omega)
  | succ fuel ih =>
    intro i hex
    simp only [findFreeFrom]
    by_cases hmem : sheetCandidate b i ∈ ex
    · rw [if_pos hmem]
      have hex' : ∃ j, i + 1 ≤ j ∧ j < (i + 1) + fuel ∧
          sheetCandidate b j ∉ ex := by
        obtain ⟨j, hj1, hj2, hj3⟩ := hex
        refine ⟨j, ?_, by omega, hj3⟩
        rcases Nat.eq_or_lt_of_le hj1 with rfl | hlt
        · exact absurd hmem hj3
        · omega
      obtain ⟨h1, h2, h3⟩ := ih (i + 1) hex'
      refine ⟨h1, by omega, ?_⟩
      intro m hm1 hm2
      rcases Nat.eq_or_lt_of_le hm1 with rfl | hlt
      · exact hmem
      · exact h3 m (by omega) hm2
    · rw [if_neg hmem]
      exact ⟨hmem, le_refl _,
        fun m hm1 hm2 => absurd (lt_of_le_of_lt hm1 hm2) (lt_irrefl _)⟩

/-- The fuel supplied by `makeUniqueSheetName` always contains an unused
candidate. -/
theorem exists_free_in_fuel (b : String) (ex : List String) :
    ∃ j, 2 ≤ j ∧ j < 2 + 10 ^ maxLen ex ∧ sheetCandidate b j ∉ ex := by
  refine ⟨max 2 (10 ^ maxLen ex), le_max_left _ _, ?_,
    sheetCandidate_big_notMem (le_max_right _ _)⟩
  have hpos : 0 < 10 ^ maxLen ex := pow_pos (by omega) _
  rcases Nat.le_total 2 (10 ^ maxLen ex) with h | h
  · rw [max_eq_right h]
    omega
  · rw [max_eq_left h]
    omega

/-- On a collision, `makeUniqueSheetName` returns the candidate of the first
unused suffix index starting at 2. -/
theorem makeUniqueSheetName_collision {b : String} {ex : List String}
    (h : (⟨b.data.take 31⟩ : String) ∈ ex) :
    makeUniqueSheetName b ex =
      sheetCandidate b (findFreeFrom b ex (10 ^ maxLen ex) 2) ∧
    sheetCandidate b (findFreeFrom b ex (10 ^ maxLen ex) 2) ∉ ex ∧
    2 ≤ findFreeFrom b ex (10 ^ maxLen ex) 2 ∧
    ∀ m, 2 ≤ m → m < findFreeFrom b ex (10 ^ maxLen ex) 2 →
      sheetCandidate b m ∈ ex := by
  have hspec := findFreeFrom_spec b ex (10 ^ maxLen ex) 2
    (exists_free_in_fuel b ex)
  refine ⟨?_, hspec.1, hspec.2.1, hspec.2.2⟩
  simp only [makeUniqueSheetName]
  rw [if_pos h]

/-- A character of a decimal representation is never an underscore. -/
theorem natDecimal_not_underscore {n : ℕ} {c : Char} (hc : c ∈ natDecimal n) :
    c ≠ '_' := by
  intro hEq
  rw [hEq] at hc
  exact absurd (natDecimal_digits n '_' hc) (by decide)

/-- Candidates with suffixes of different digit counts differ: the underscore
of the longer-suffix candidate lines up with a digit of the shorter one. -/
theorem sheetCandidate_ne_of_length_lt (b : String) {i j : ℕ}
    (hlt : (natDecimal i).length < (natDecimal j).length) :
    b.data.take (31 - ((natDecimal i).length + 1)) ++ ('_' :: natDecimal i) ≠
      b.data.take (31 - ((natDecimal j).length + 1)) ++ ('_' :: natDecimal j) := by
  intro hl
  set di := natDecimal i with hdi
  set dj := natDecimal j with hdj
  set ti := b.data.take (31 - (di.length + 1)) with hti
  set tj := b.data.take (31 - (dj.length + 1)) with htj
  have hlen := congrArg List.length hl
  simp only [List.length_append, List.length_cons] at hlen
  have htilen : tj.length < ti.length := by omega
  have hLHS : (ti ++ ('_' :: di))[ti.length]? = some '_' := by
    rw [List.getElem?_append_right (le_refl _)]
    simp
  rw [hl] at hLHS
  rw [List.getElem?_append_right (by omega : tj.length ≤ ti.length)] at hLHS
  obtain ⟨k', hk'⟩ : ∃ k', ti.length - tj.length = k' + 1 :=
    ⟨ti.length - tj.length - 1, by omega⟩
  rw [hk', List.getElem?_cons_succ] at hLHS
  have hmem : '_' ∈ dj := List.getElem?_mem hLHS
  exact natDecimal_not_underscore hmem rfl

/-- For a fixed base, distinct suffix indices give distinct candidates. -/
theorem sheetCandidate_inj (b : String) {i j : ℕ}
    (h : sheetCandidate b i = sheetCandidate b j) : i = j := by
  have hl : b.data.take (31 - ((natDecimal i).length + 1)) ++
      ('_' :: natDecimal i) =
      b.data.take (31 - ((natDecimal j).length + 1)) ++ ('_' :: natDecimal j) :=
    congrArg String.data h
  rcases lt_trichotomy (natDecimal i).length (natDecimal j).length with
    hlt | heq | hgt
  · exact absurd hl (sheetCandidate_ne_of_length_lt b hlt)
  · rw [heq] at hl
    have hsuf := List.append_cancel_left hl
    have hdd : natDecimal i = natDecimal j := by
      injection hsuf
    exact natDecimal_inj hdd
  · exact absurd hl.symm (sheetCandidate_ne_of_length_lt b hgt)

/-- Pigeonhole: among the first `existing.length + 1` suffix indices there is
an unused candidate. -/
theorem exists_free_small (b : String) (ex : List String) :
    ∃ j, 2 ≤ j ∧ j ≤ ex.length + 2 ∧ sheetCandidate b j ∉ ex := by
  by_contra hcon
  push_neg at hcon
  have hsub : (Finset.Icc 2 (ex.length + 2)).image (sheetCandidate b) ⊆
      ex.toFinset := by
    intro x hx
    obtain ⟨j, hj, rfl⟩ := Finset.mem_image.mp hx
    obtain ⟨hj1, hj2⟩ := Finset.mem_Icc.mp hj
    exact List.mem_toFinset.mpr (hcon j hj1 hj2)
  have hcard : ((Finset.Icc 2 (ex.length + 2)).image (sheetCandidate b)).card =
      ex.length + 1 := by
    rw [Finset.card_image_of_injOn fun x _ y _ hxy => sheetCandidate_inj b hxy,
      Nat.card_Icc]
    omega
  have hle := Finset.card_le_card hsub
  have hfin := List.toFinset_card_le ex
  omega

/-- C10, witness: `"3abc"` parses to 3, `"W3x"` parses to 3. -/
theorem claim_C10_witness :
    parseOpponentToken (some "3abc") =
      ⟨some (digitsToNat ['3'] : ℤ), ⟨['3'] ++ ['a', 'b', 'c']⟩⟩ ∧
    parseOpponentToken (some "W3x") =
      ⟨some (digitsToNat ['3'] : ℤ), ⟨'W' :: (['3'] ++ ['x'])⟩⟩ :=
  ⟨claim_C10.1 "3abc" ['3'] ['a', 'b', 'c'] (by decide) (by decide)
      (by decide)
      (fun c hc => by cases Option.some.inj hc; decide),
   claim_C10.2 "W3x" 'W' ['3'] ['x'] (by decide) (by decide) (by decide)
      (by decide)
      (fun c hc => by cases Option.some.inj hc; decide)⟩


/-- C9, amended: sanitized names are at most 31 characters; an unused base is
kept; on a collision the result is the (trimmed) base plus the suffix `_i`
for the smallest unused `i ≥ 2`; and the combined result stays within 31
characters whenever fewer than `10^30 - 2` names are already in use (with at
least that many, the suffix itself outgrows 31 characters, see the
counterexample). -/
theorem claim_C9 :
    (∀ nm : String, (sanitizeSheetName nm).length ≤ 31) ∧
    (∀ (b : String) (ex : List String),
      (⟨b.data.take 31⟩ : String) ∉ ex →
      makeUniqueSheetName b ex = ⟨b.data.take 31⟩) ∧
    (∀ (b : String) (ex : List String),
      (⟨b.data.take 31⟩ : String) ∈ ex →
      ∃ i, makeUniqueSheetName b ex = sheetCandidate b i ∧ 2 ≤ i ∧
        sheetCandidate b i ∉ ex ∧
        ∀ m, 2 ≤ m → m < i → sheetCandidate b m ∈ ex) ∧
    (∀ (nm : String) (ex : List String), ex.length + 2 < 10 ^ 30 →
      (makeUniqueSheetName (sanitizeSheetName nm) ex).length ≤ 31) := by
  have hsan : ∀ nm : String, (sanitizeSheetName nm).length ≤ 31 := by
    intro nm
    simp only [sanitizeSheetName]
    show (List.take 31 _).length ≤ 31
    rw [List.length_take]
    exact min_le_left _ _
  have hkeep : ∀ (b : String) (ex : List String),
      (⟨b.data.take 31⟩ : String) ∉ ex →
      makeUniqueSheetName b ex = ⟨b.data.take 31⟩ := by
    intro b ex h
    simp only [makeUniqueSheetName]
    rw [if_neg h]
  refine ⟨hsan, hkeep, ?_, ?_⟩
  · intro b ex h
    obtain ⟨heq, hfree, hge, hmin⟩ := makeUniqueSheetName_collision h
    exact ⟨_, heq, hge, hfree, hmin⟩
  · intro nm ex hsize
    by_cases h : (⟨(sanitizeSheetName nm).data.take 31⟩ : String) ∈ ex
    · obtain ⟨heq, hfree, hge, hmin⟩ := makeUniqueSheetName_collision h
      rw [heq]
      obtain ⟨j, hj1, hj2, hj3⟩ := exists_free_small (sanitizeSheetName nm) ex
      have hrle : findFreeFrom (sanitizeSheetName nm) ex (10 ^ maxLen ex) 2 ≤ j := by
        by_contra hc
        push_neg at hc
        exact hj3 (hmin j hj1 hc)
      have hr30 : findFreeFrom (sanitizeSheetName nm) ex (10 ^ maxLen ex) 2 <
          10 ^ 30 := by omega
      exact sheetCandidate_length_le (natDecimal_length_le (by omega) hr30)
    · rw [hkeep _ _ h]
      show (List.take 31 _).length ≤ 31
      rw [List.length_take]
      exact min_le_left _ _

/-- C9, witness: keeping an unused base, suffixing a used one, and the
31-character bound for a small set of used names. -/
theorem claim_C9_witness :
    (sanitizeSheetName "group-one.txt").length ≤ 31 ∧
    makeUniqueSheetName "G" [] = ⟨("G" : String).data.take 31⟩ ∧
    (∃ i, makeUniqueSheetName "G" ["G"] = sheetCandidate "G" i ∧ 2 ≤ i ∧
      sheetCandidate "G" i ∉ ["G"] ∧
      ∀ m, 2 ≤ m → m < i → sheetCandidate "G" m ∈ ["G"]) ∧
    (makeUniqueSheetName (sanitizeSheetName "G") ["G"]).length ≤ 31 :=
  ⟨claim_C9.1 "group-one.txt",
   claim_C9.2.1 "G" [] (by decide),
   claim_C9.2.2.1 "G" ["G"] (by decide),
   claim_C9.2.2.2 "G" ["G"] (by norm_num)⟩

/-- C9, counterexample: with `10^30 - 2` candidate names (plus the base)
already in use, the first free suffix has 31 digits and the produced sheet
name is 32 characters long, exceeding the claimed 31-character bound. -/
theorem claim_C9_cex :
    31 < (makeUniqueSheetName (sanitizeSheetName "x") hugeExisting).length := by
  have hsan : sanitizeSheetName "x" = "x" := by decide
  rw [hsan]
  have hname : (⟨("x" : String).data.take 31⟩ : String) = "x" := by decide
  have hmem : (⟨("x" : String).data.take 31⟩ : String) ∈ hugeExisting := by
    rw [hname]
    exact List.mem_cons_self _ _
  obtain ⟨heq, hfree, hge, hmin⟩ := makeUniqueSheetName_collision hmem
  rw [heq]
  have h2le : (2:ℕ) ≤ 10 ^ 30 := by
    calc (2:ℕ) ≤ 10 := by omega
    _ = 10 ^ 1 := (pow_one 10).symm
    _ ≤ 10 ^ 30 := Nat.pow_le_pow_right (by omega) (by omega)
  have hr : 10 ^ 30 ≤ findFreeFrom "x" hugeExisting (10 ^ maxLen hugeExisting) 2 := by
    by_contra hc
    push_neg at hc
    have hmem' : sheetCandidate "x"
        (findFreeFrom "x" hugeExisting (10 ^ maxLen hugeExisting) 2) ∈
        hugeExisting := by
      refine List.mem_cons_of_mem _ (List.mem_map.mpr
        ⟨findFreeFrom "x" hugeExisting (10 ^ maxLen hugeExisting) 2, ?_, rfl⟩)
      exact List.mem_range'.mpr
        ⟨findFreeFrom "x" hugeExisting (10 ^ maxLen hugeExisting) 2 - 2,
          by omega, by omega⟩
    exact hfree hmem'
  have hnd : 31 ≤ (natDecimal
      (findFreeFrom "x" hugeExisting (10 ^ maxLen hugeExisting) 2)).length := by
    have := natDecimal_length_ge hr
    omega
  have hlen := sheetCandidate_length_ge "x"
    (findFreeFrom "x" hugeExisting (10 ^ maxLen hugeExisting) 2)
  omega
